import Mathlib

/-!
Shallow embedding of
`pkg/statistics/handle/autoanalyze/priorityqueue/static_partitioned_table_analysis_job.go`:
the `StaticPartitionedTableAnalysisJob` variant of the auto-analyze priority
queue, its SQL generation, analyze-type classification, dispatch, hook firing
and validity check, together with theorems settling the specification claims.

Modelling conventions:
- Go `error` values are `Option String` (`none` = nil).
- The executor `exec.AutoAnalyze` is an oracle `ExecCall → Bool`; each issued
  statement is recorded as an `ExecCall` (stats version, SQL template,
  positional identifier parameters), in issue order.
- Hook invocations are recorded as `HookEvent`s, in firing order; a hook field
  holds `some ()` when a hook is registered (non-nil) and `none` otherwise.
- `float64` indicator/weight payloads are carried opaquely as `Int`: no claim
  computes with them, they are only stored and returned.
-/

namespace PriorityQueue

/-- Go `float64` payloads carried opaquely (never computed with here). -/
abbrev GoFloat := Int

/-- Go `time.Duration` (int64 nanoseconds). -/
abbrev GoDuration := Int

/-- Go `Indicators`: shared staleness/size value type embedded by every job variant. -/
structure Indicators where
  ChangePercentage : GoFloat
  TableSize : GoFloat
  LastAnalysisDuration : GoDuration
deriving DecidableEq

/-- The two analyze types of the static-partition job (Go `analyzeType` constants). -/
inductive analyzeType where
  | analyzeStaticPartition
  | analyzeStaticPartitionIndex
deriving DecidableEq

/-- A hook firing recorded by the instrumented embedding. -/
inductive HookEvent where
  | successHook
  | failureHook
deriving DecidableEq

/-- One call to the external Executor `exec.AutoAnalyze`: the stats version
passed, the SQL template, and the ordered identifier parameters. -/
structure ExecCall where
  statsVer : Int
  sql : String
  params : List String
deriving DecidableEq

/-- The session context: the only part read by this file is
`sctx.GetSessionVars().AnalyzeVersion`. -/
structure SessionCtx where
  analyzeVersion : Int
deriving DecidableEq

/-- Go `StaticPartitionedTableAnalysisJob`: a job for analyzing a static
partitioned table. Hook fields hold `some ()` when registered (non-nil). -/
structure StaticPartitionedTableAnalysisJob where
  successHook : Option Unit
  failureHook : Option Unit
  TableSchema : String
  GlobalTableName : String
  StaticPartitionName : String
  Indexes : List String
  indicators : Indicators
  GlobalTableID : Int
  StaticPartitionID : Int
  TableStatsVer : Int
  Weight : GoFloat
deriving DecidableEq

namespace StaticPartitionedTableAnalysisJob

/-- Go `NewStaticPartitionTableAnalysisJob`: pure construction; hooks start nil. -/
def NewStaticPartitionTableAnalysisJob
    (schema globalTableName : String) (globalTableID : Int)
    (partitionName : String) (partitionID : Int)
    (indexes : List String) (tableStatsVer : Int)
    (changePercentage tableSize : GoFloat)
    (lastAnalysisDuration : GoDuration) : StaticPartitionedTableAnalysisJob :=
  { successHook := none
    failureHook := none
    GlobalTableID := globalTableID
    TableSchema := schema
    GlobalTableName := globalTableName
    StaticPartitionID := partitionID
    StaticPartitionName := partitionName
    Indexes := indexes
    TableStatsVer := tableStatsVer
    indicators :=
      { ChangePercentage := changePercentage
        TableSize := tableSize
        LastAnalysisDuration := lastAnalysisDuration }
    Weight := 0 }

/-- Go `GetTableID`: the table ID of the job is the static partition ID. -/
def GetTableID (j : StaticPartitionedTableAnalysisJob) : Int :=
  j.StaticPartitionID

/-- Go `RegisterSuccessHook`. -/
def RegisterSuccessHook (j : StaticPartitionedTableAnalysisJob) :
    StaticPartitionedTableAnalysisJob :=
  { j with successHook := some () }

/-- Go `RegisterFailureHook`. -/
def RegisterFailureHook (j : StaticPartitionedTableAnalysisJob) :
    StaticPartitionedTableAnalysisJob :=
  { j with failureHook := some () }

/-- Go `GetIndicators`. -/
def GetIndicators (j : StaticPartitionedTableAnalysisJob) : Indicators :=
  j.indicators

/-- Go `SetIndicators`. -/
def SetIndicators (j : StaticPartitionedTableAnalysisJob) (ind : Indicators) :
    StaticPartitionedTableAnalysisJob :=
  { j with indicators := ind }

/-- Go `SetWeight`. -/
def SetWeight (j : StaticPartitionedTableAnalysisJob) (weight : GoFloat) :
    StaticPartitionedTableAnalysisJob :=
  { j with Weight := weight }

/-- Go `GetWeight`. -/
def GetWeight (j : StaticPartitionedTableAnalysisJob) : GoFloat :=
  j.Weight

/-- Go `HasNewlyAddedIndex`: `len(j.Indexes) > 0`. -/
def HasNewlyAddedIndex (j : StaticPartitionedTableAnalysisJob) : Bool :=
  j.Indexes.length > 0

/-- Go `getAnalyzeType`: index type when newly added indexes exist, else partition type. -/
def getAnalyzeType (j : StaticPartitionedTableAnalysisJob) : analyzeType :=
  if j.HasNewlyAddedIndex then analyzeType.analyzeStaticPartitionIndex
  else analyzeType.analyzeStaticPartition

/-- Go `GenSQLForAnalyzeStaticPartition`: template and ordered identifier params. -/
def GenSQLForAnalyzeStaticPartition (j : StaticPartitionedTableAnalysisJob) :
    String × List String :=
  ("analyze table %n.%n partition %n",
   [j.TableSchema, j.GlobalTableName, j.StaticPartitionName])

/-- Go `GenSQLForAnalyzeStaticPartitionIndex`: template and ordered identifier params. -/
def GenSQLForAnalyzeStaticPartitionIndex (j : StaticPartitionedTableAnalysisJob)
    (index : String) : String × List String :=
  ("analyze table %n.%n partition %n index %n",
   [j.TableSchema, j.GlobalTableName, j.StaticPartitionName, index])

/-- The `ExecCall` issued for the whole-partition statement
(`exec.AutoAnalyze(sctx, ..., j.TableStatsVer, sql, params...)`). -/
def partitionCall (j : StaticPartitionedTableAnalysisJob) : ExecCall :=
  { statsVer := j.TableStatsVer
    sql := j.GenSQLForAnalyzeStaticPartition.1
    params := j.GenSQLForAnalyzeStaticPartition.2 }

/-- The `ExecCall` issued for one partition-index statement. -/
def indexCall (j : StaticPartitionedTableAnalysisJob) (index : String) : ExecCall :=
  { statsVer := j.TableStatsVer
    sql := (j.GenSQLForAnalyzeStaticPartitionIndex index).1
    params := (j.GenSQLForAnalyzeStaticPartitionIndex index).2 }

/-- Go `analyzeStaticPartition`: one whole-partition statement; result is the
executor's boolean. Second component: issued calls in order. -/
def analyzeStaticPartition (j : StaticPartitionedTableAnalysisJob)
    (ex : ExecCall → Bool) : Bool × List ExecCall :=
  (ex j.partitionCall, [j.partitionCall])

/-- The version-1 index loop body: `for _, index := range indexes { if
!exec.AutoAnalyze(...) { return false } }; return true`, recorded with the
statements it issues. -/
def analyzeIndexesV1 (j : StaticPartitionedTableAnalysisJob)
    (ex : ExecCall → Bool) : List String → Bool × List ExecCall
  | [] => (true, [])
  | index :: rest =>
    if ex (j.indexCall index) then
      let r := analyzeIndexesV1 j ex rest
      (r.1, j.indexCall index :: r.2)
    else
      (false, [j.indexCall index])

/-- Go `analyzeStaticPartitionIndexes`: empty-list guard, then version dispatch on
the session variable `AnalyzeVersion`: version 1 analyzes each index in order
with short-circuit; any other version analyzes only the first index. -/
def analyzeStaticPartitionIndexes (j : StaticPartitionedTableAnalysisJob)
    (sctx : SessionCtx) (ex : ExecCall → Bool) : Bool × List ExecCall :=
  match j.Indexes with
  | [] => (true, [])
  | firstIndex :: rest =>
    if sctx.analyzeVersion = 1 then
      analyzeIndexesV1 j ex (firstIndex :: rest)
    else
      (ex (j.indexCall firstIndex), [j.indexCall firstIndex])

end StaticPartitionedTableAnalysisJob

/-- Modelled from the spec: `statsutil.CallWithSCtx` is not under src. Per the
spec it is the session pool's "run with a borrowed session" primitive with
guaranteed release on every exit path, where an acquisition fault is "surfaced
through the pool's own wrapper" as the primitive's returned error and the
borrowed-session function then never runs. The pool is `Except String
SessionCtx` (successful borrow, or acquisition fault). The closure's captured
mutable state (here the `success` flag and the issued-statement log) is
threaded as `σ`: it keeps its initial value when the closure never runs. -/
def CallWithSCtx {σ : Type} (pool : Except String SessionCtx) (init : σ)
    (f : SessionCtx → Option String × σ) : Option String × σ :=
  match pool with
  | Except.error e => (some e, init)
  | Except.ok sctx => f sctx

namespace StaticPartitionedTableAnalysisJob

/-- The deferred hook block of `Analyze`: fires the success hook when the
`success` flag is true, else the failure hook, each only when registered. -/
def deferredHooks (j : StaticPartitionedTableAnalysisJob) (success : Bool) :
    List HookEvent :=
  if success then
    match j.successHook with
    | some _ => [HookEvent.successHook]
    | none => []
  else
    match j.failureHook with
    | some _ => [HookEvent.failureHook]
    | none => []

/-- Observable outcome of one `Analyze` call: the returned Go error, the final
value of the deferred-captured `success` flag, the hook firings (in order) and
the executor calls issued (in order). -/
structure AnalyzeResult where
  err : Option String
  success : Bool
  hookEvents : List HookEvent
  execCalls : List ExecCall
deriving DecidableEq

/-- Go `Analyze`: sets `success := true`, defers the hook block, and runs the
analyze-type dispatch under `CallWithSCtx`; the closure always returns nil and
`Analyze` returns whatever `CallWithSCtx` returns. The deferred hook block runs
on every exit path. -/
def Analyze (j : StaticPartitionedTableAnalysisJob)
    (pool : Except String SessionCtx) (ex : ExecCall → Bool) : AnalyzeResult :=
  let r :=
    CallWithSCtx pool (true, ([] : List ExecCall)) (fun sctx =>
      match j.getAnalyzeType with
      | analyzeType.analyzeStaticPartition =>
        (none, j.analyzeStaticPartition ex)
      | analyzeType.analyzeStaticPartitionIndex =>
        (none, j.analyzeStaticPartitionIndexes sctx ex))
  { err := r.1
    success := r.2.1
    hookEvents := j.deferredHooks r.2.1
    execCalls := r.2.2 }

/-- Observable outcome of one `IsValidToAnalyze` call: the returned pair, the
hook firings, and how many times the external validity predicate was consulted. -/
structure ValidResult where
  valid : Bool
  failReason : String
  hookEvents : List HookEvent
  predicateCalls : Nat
deriving DecidableEq

/-- Go `IsValidToAnalyze`: with a non-empty static partition name, consults the
external `isValidToAnalyze` predicate on (schema, table, [partition]); on a
negative result fires the failure hook (when registered) and returns
`(false, failReason)`; otherwise returns `(true, "")`. With an empty partition
name, returns `(true, "")` without consulting the predicate. -/
def IsValidToAnalyze (j : StaticPartitionedTableAnalysisJob)
    (pred : String → String → List String → Bool × String) : ValidResult :=
  if j.StaticPartitionName ≠ "" then
    let r := pred j.TableSchema j.GlobalTableName [j.StaticPartitionName]
    if !r.1 then
      { valid := false
        failReason := r.2
        hookEvents :=
          match j.failureHook with
          | some _ => [HookEvent.failureHook]
          | none => []
        predicateCalls := 1 }
    else
      { valid := true, failReason := "", hookEvents := [], predicateCalls := 1 }
  else
    { valid := true, failReason := "", hookEvents := [], predicateCalls := 0 }

/-- A concrete job used by counterexamples and witnesses: both hooks
registered, two newly added indexes, stats version 2. -/
def sampleJob : StaticPartitionedTableAnalysisJob :=
  { successHook := some ()
    failureHook := some ()
    TableSchema := "s"
    GlobalTableName := "t"
    StaticPartitionName := "p"
    Indexes := ["i1", "i2"]
    indicators := { ChangePercentage := 0, TableSize := 0, LastAnalysisDuration := 0 }
    GlobalTableID := 10
    StaticPartitionID := 20
    TableStatsVer := 2
    Weight := 0 }

/-- A second concrete job sharing `sampleJob`'s index list but differing in
every other non-hook field. -/
def sampleJobB : StaticPartitionedTableAnalysisJob :=
  { successHook := none
    failureHook := none
    TableSchema := "s2"
    GlobalTableName := "t2"
    StaticPartitionName := "p2"
    Indexes := ["i1", "i2"]
    indicators := { ChangePercentage := 1, TableSize := 2, LastAnalysisDuration := 3 }
    GlobalTableID := 11
    StaticPartitionID := 21
    TableStatsVer := 1
    Weight := 4 }

/-- A concrete job with three newly added indexes and a non-index name pool
disjoint from the remaining index names. -/
def sampleJob3 : StaticPartitionedTableAnalysisJob :=
  { sampleJob with Indexes := ["i1", "i2", "i3"] }

/-- A concrete executor oracle that fails exactly the statement whose
parameters target index "i2" and succeeds on every other statement. -/
def sampleExec : ExecCall → Bool :=
  fun c => !(c.params == ["s", "t", "p", "i2"])

/-- A concrete external validity predicate that always judges the partition
ineligible, with a fixed reason. -/
def sampleInvalidPred : String → String → List String → Bool × String :=
  fun _ _ _ => (false, "not eligible")

/-- The job `j` with both hook references nil. -/
def stripHooks (j : StaticPartitionedTableAnalysisJob) :
    StaticPartitionedTableAnalysisJob :=
  { j with successHook := none, failureHook := none }

theorem stripHooks_indexCall (j : StaticPartitionedTableAnalysisJob) (i : String) :
    (stripHooks j).indexCall i = j.indexCall i := rfl

theorem stripHooks_getAnalyzeType (j : StaticPartitionedTableAnalysisJob) :
    (stripHooks j).getAnalyzeType = j.getAnalyzeType := rfl

theorem stripHooks_deferredHooks (j : StaticPartitionedTableAnalysisJob) (s : Bool) :
    (stripHooks j).deferredHooks s = [] := by
  cases s <;> rfl

theorem analyzeIndexesV1_stripHooks (j : StaticPartitionedTableAnalysisJob)
    (ex : ExecCall → Bool) (l : List String) :
    (stripHooks j).analyzeIndexesV1 ex l = j.analyzeIndexesV1 ex l := by
  induction l with
  | nil => rfl
  | cons i rest ih =>
    simp only [analyzeIndexesV1, stripHooks_indexCall, ih]

/-- Characterization of the version-1 loop: the result is `true` iff every
index's statement succeeds, and the issued statements are exactly the
per-index statements for the list prefix extending one past the successful
`takeWhile` prefix (i.e. through the first failing index, inclusive). -/
theorem analyzeIndexesV1_eq (j : StaticPartitionedTableAnalysisJob)
    (ex : ExecCall → Bool) (l : List String) :
    j.analyzeIndexesV1 ex l =
      (l.all (fun i => ex (j.indexCall i)),
       (l.take ((l.takeWhile (fun i => ex (j.indexCall i))).length + 1)).map
         j.indexCall) := by
  induction l with
  | nil => simp [analyzeIndexesV1]
  | cons i rest ih =>
    by_cases hex : ex (j.indexCall i) = true
    · simp [analyzeIndexesV1, hex, ih, List.takeWhile_cons]
    · simp only [Bool.not_eq_true] at hex
      simp [analyzeIndexesV1, hex, List.takeWhile_cons]

/-- The version-1 loop's boolean result is `true` exactly when every statement
it issued succeeded: no partial credit, and the failing statement is recorded. -/
theorem analyzeIndexesV1_result_eq_all_calls (j : StaticPartitionedTableAnalysisJob)
    (ex : ExecCall → Bool) (l : List String) :
    (j.analyzeIndexesV1 ex l).1 = (j.analyzeIndexesV1 ex l).2.all ex := by
  induction l with
  | nil => simp [analyzeIndexesV1]
  | cons i rest ih =>
    by_cases hex : ex (j.indexCall i) = true
    · simp [analyzeIndexesV1, hex, ih]
    · simp only [Bool.not_eq_true] at hex
      simp [analyzeIndexesV1, hex]

/-- Every statement the version-1 loop issues carries the job's
`TableStatsVer` as the version handed to the Executor. -/
theorem analyzeIndexesV1_statsVer (j : StaticPartitionedTableAnalysisJob)
    (ex : ExecCall → Bool) (l : List String) :
    ∀ c ∈ (j.analyzeIndexesV1 ex l).2, c.statsVer = j.TableStatsVer := by
  induction l with
  | nil => simp [analyzeIndexesV1]
  | cons i rest ih =>
    by_cases hex : ex (j.indexCall i) = true
    · simp only [analyzeIndexesV1, hex, if_true, List.mem_cons]
      rintro c (rfl | hc)
      · rfl
      · exact ih c hc
    · simp only [Bool.not_eq_true] at hex
      simp only [analyzeIndexesV1, hex, Bool.false_eq_true, if_false,
        List.mem_singleton]
      rintro c rfl
      rfl

/-- C1 counterexample: on a session-acquisition fault, `Analyze` returns the
pool's error to its caller (not nil), and the success hook — not the failure
hook — fires, because the `success` flag keeps its initial `true` value when
the borrowed-session closure never runs. This refutes both halves of the
claim at a concrete job with both hooks registered. -/
theorem c1_counterexample :
    (sampleJob.Analyze (Except.error "session pool fault") (fun _ => true)).err =
        some "session pool fault"
    ∧ (sampleJob.Analyze (Except.error "session pool fault") (fun _ => true)).hookEvents =
        [HookEvent.successHook] := by
  exact ⟨rfl, rfl⟩

/-- C1 (amended): `Analyze` returns nil whenever a session is acquired; on a
session-acquisition fault, the pool error propagates to the caller, the
`success` flag stays `true`, and the failure hook never fires (the success
hook fires instead, when registered). -/
theorem c1_amended (j : StaticPartitionedTableAnalysisJob) (sctx : SessionCtx)
    (e : String) (ex : ExecCall → Bool) :
    (j.Analyze (Except.ok sctx) ex).err = none
    ∧ (j.Analyze (Except.error e) ex).err = some e
    ∧ (j.Analyze (Except.error e) ex).success = true
    ∧ HookEvent.failureHook ∉ (j.Analyze (Except.error e) ex).hookEvents := by
  refine ⟨?_, rfl, rfl, ?_⟩
  · cases h : j.getAnalyzeType <;> simp [Analyze, CallWithSCtx, h]
  · show HookEvent.failureHook ∉ j.deferredHooks true
    cases h : j.successHook <;> simp [deferredHooks, h]

/-- C2: with both hooks registered, after any `Analyze` call the recorded hook
firings are exactly a one-element list — the success hook when the final
`success` flag is true, the failure hook otherwise — on every exit path
(normal dispatch, empty-index guard, session-pool fault). -/
theorem c2_exactly_one_hook (j : StaticPartitionedTableAnalysisJob)
    (pool : Except String SessionCtx) (ex : ExecCall → Bool)
    (hs : j.successHook = some ()) (hf : j.failureHook = some ()) :
    (j.Analyze pool ex).hookEvents =
      [if (j.Analyze pool ex).success then HookEvent.successHook
       else HookEvent.failureHook] := by
  show j.deferredHooks (j.Analyze pool ex).success = _
  cases hsucc : (j.Analyze pool ex).success <;> simp [deferredHooks, hs, hf]

theorem c2_witness :
    (sampleJob.Analyze (Except.ok { analyzeVersion := 2 }) (fun _ => true)).hookEvents =
      [if (sampleJob.Analyze (Except.ok { analyzeVersion := 2 }) (fun _ => true)).success
       then HookEvent.successHook else HookEvent.failureHook] :=
  c2_exactly_one_hook sampleJob (Except.ok { analyzeVersion := 2 }) (fun _ => true)
    rfl rfl

/-- C3 counterexample: a job whose stats-format version field is 2 (≥ 2)
nevertheless runs the version-1 one-statement-per-index policy when the
session variable `AnalyzeVersion` is 1: two statements are issued for the two
indexes (the claim's version-≥2 policy would issue exactly one), even though
the version handed to the Executor in each statement is the job's field, 2.
The policy selector is the session variable, not the job field. -/
theorem c3_counterexample :
    sampleJob.TableStatsVer = 2
    ∧ (sampleJob.Analyze (Except.ok { analyzeVersion := 1 }) (fun _ => true)).execCalls =
        [{ statsVer := 2, sql := "analyze table %n.%n partition %n index %n",
           params := ["s", "t", "p", "i1"] },
         { statsVer := 2, sql := "analyze table %n.%n partition %n index %n",
           params := ["s", "t", "p", "i2"] }] := by
  exact ⟨rfl, rfl⟩

/-- C3 (amended): for index-type jobs the choice between the version-1 policy
(one statement per index) and the other-version policy (first index only) is
determined by the session variable `AnalyzeVersion` (1 versus anything else),
while the version value passed to the Executor in every issued statement is
the job's `TableStatsVer` field, which may differ from the selector. -/
theorem c3_amended (j : StaticPartitionedTableAnalysisJob) (sctx : SessionCtx)
    (ex : ExecCall → Bool) (firstIndex : String) (rest : List String)
    (h : j.Indexes = firstIndex :: rest) :
    (j.analyzeStaticPartitionIndexes sctx ex =
      if sctx.analyzeVersion = 1 then j.analyzeIndexesV1 ex j.Indexes
      else (ex (j.indexCall firstIndex), [j.indexCall firstIndex]))
    ∧ ∀ c ∈ (j.analyzeStaticPartitionIndexes sctx ex).2,
        c.statsVer = j.TableStatsVer := by
  constructor
  · simp only [analyzeStaticPartitionIndexes, h]
  · intro c hc
    simp only [analyzeStaticPartitionIndexes, h] at hc
    by_cases hv : sctx.analyzeVersion = 1
    · rw [if_pos hv] at hc
      exact analyzeIndexesV1_statsVer j ex (firstIndex :: rest) c hc
    · rw [if_neg hv] at hc
      simp only [List.mem_singleton] at hc
      subst hc
      rfl

theorem c3_amended_witness :
    sampleJob.analyzeStaticPartitionIndexes { analyzeVersion := 3 } (fun _ => true) =
      (true, [sampleJob.indexCall "i1"]) := by
  rw [(c3_amended sampleJob { analyzeVersion := 3 } (fun _ => true) "i1" ["i2"] rfl).1]
  rfl

/-- C4: under the version-1 index policy (session `AnalyzeVersion` = 1,
non-empty index list), the issued statements are exactly the per-index
statements for the prefix of the index list reaching one past the successful
`takeWhile` prefix — one statement per index, in list order, stopping at the
first index whose execution returns false, never referencing later indexes —
the overall result is true iff every index's statement succeeds, and equals
"every issued statement succeeded" (no partial credit). -/
theorem c4_v1_policy (j : StaticPartitionedTableAnalysisJob) (sctx : SessionCtx)
    (ex : ExecCall → Bool) (firstIndex : String) (rest : List String)
    (h1 : sctx.analyzeVersion = 1) (h2 : j.Indexes = firstIndex :: rest) :
    (j.analyzeStaticPartitionIndexes sctx ex).2 =
      (j.Indexes.take
        ((j.Indexes.takeWhile (fun i => ex (j.indexCall i))).length + 1)).map
        j.indexCall
    ∧ (j.analyzeStaticPartitionIndexes sctx ex).1 =
        j.Indexes.all (fun i => ex (j.indexCall i))
    ∧ (j.analyzeStaticPartitionIndexes sctx ex).1 =
        (j.analyzeStaticPartitionIndexes sctx ex).2.all ex := by
  have hred : j.analyzeStaticPartitionIndexes sctx ex =
      j.analyzeIndexesV1 ex j.Indexes := by
    simp [analyzeStaticPartitionIndexes, h2, h1]
  refine ⟨?_, ?_, ?_⟩
  · rw [hred, analyzeIndexesV1_eq]
  · rw [hred, analyzeIndexesV1_eq]
  · rw [hred]
    exact analyzeIndexesV1_result_eq_all_calls j ex j.Indexes

theorem c4_witness :
    (sampleJob3.analyzeStaticPartitionIndexes { analyzeVersion := 1 } sampleExec).1 =
      ((sampleJob3.analyzeStaticPartitionIndexes { analyzeVersion := 1 } sampleExec).2).all
        sampleExec :=
  (c4_v1_policy sampleJob3 { analyzeVersion := 1 } sampleExec "i1" ["i2", "i3"]
    rfl rfl).2.2

/-- C5: under the version-≥2 index policy, exactly one statement is issued —
the one for the first index — its executor result is the job's overall result,
and a remaining index name (when distinct from the schema, table, partition and
first-index identifiers) appears in no issued statement's parameters. -/
theorem c5_v2_policy (j : StaticPartitionedTableAnalysisJob) (sctx : SessionCtx)
    (ex : ExecCall → Bool) (firstIndex : String) (rest : List String)
    (hv : 2 ≤ sctx.analyzeVersion) (hidx : j.Indexes = firstIndex :: rest) :
    j.analyzeStaticPartitionIndexes sctx ex =
      (ex (j.indexCall firstIndex), [j.indexCall firstIndex])
    ∧ ∀ i ∈ rest, i ≠ j.TableSchema → i ≠ j.GlobalTableName →
        i ≠ j.StaticPartitionName → i ≠ firstIndex →
        ∀ c ∈ (j.analyzeStaticPartitionIndexes sctx ex).2, i ∉ c.params := by
  have hne : sctx.analyzeVersion ≠ 1 := by omega
  have hred : j.analyzeStaticPartitionIndexes sctx ex =
      (ex (j.indexCall firstIndex), [j.indexCall firstIndex]) := by
    simp [analyzeStaticPartitionIndexes, hidx, hne]
  refine ⟨hred, ?_⟩
  intro i _ hs ht hp hfi c hc
  rw [hred] at hc
  simp only [List.mem_singleton] at hc
  subst hc
  simp [indexCall, GenSQLForAnalyzeStaticPartitionIndex, hs, ht, hp, hfi]

theorem c5_witness :
    sampleJob3.analyzeStaticPartitionIndexes { analyzeVersion := 2 } sampleExec =
      (true, [sampleJob3.indexCall "i1"]) := by
  rw [(c5_v2_policy sampleJob3 { analyzeVersion := 2 } sampleExec "i1" ["i2", "i3"]
    (by decide) rfl).1]
  rfl

theorem stripHooks_Indexes (j : StaticPartitionedTableAnalysisJob) :
    (stripHooks j).Indexes = j.Indexes := rfl

theorem stripHooks_failureHook (j : StaticPartitionedTableAnalysisJob) :
    (stripHooks j).failureHook = none := rfl

theorem stripHooks_StaticPartitionName (j : StaticPartitionedTableAnalysisJob) :
    (stripHooks j).StaticPartitionName = j.StaticPartitionName := rfl

theorem stripHooks_TableSchema (j : StaticPartitionedTableAnalysisJob) :
    (stripHooks j).TableSchema = j.TableSchema := rfl

theorem stripHooks_GlobalTableName (j : StaticPartitionedTableAnalysisJob) :
    (stripHooks j).GlobalTableName = j.GlobalTableName := rfl

theorem analyzeStaticPartition_stripHooks (j : StaticPartitionedTableAnalysisJob)
    (ex : ExecCall → Bool) :
    (stripHooks j).analyzeStaticPartition ex = j.analyzeStaticPartition ex := rfl

theorem analyzeStaticPartitionIndexes_stripHooks
    (j : StaticPartitionedTableAnalysisJob) (sctx : SessionCtx)
    (ex : ExecCall → Bool) :
    (stripHooks j).analyzeStaticPartitionIndexes sctx ex =
      j.analyzeStaticPartitionIndexes sctx ex := by
  cases h : j.Indexes with
  | nil =>
    simp only [analyzeStaticPartitionIndexes, stripHooks_Indexes, h]
  | cons a l =>
    simp only [analyzeStaticPartitionIndexes, stripHooks_Indexes, h,
      analyzeIndexesV1_stripHooks, stripHooks_indexCall]

/-- C6: with a failure hook registered, `IsValidToAnalyze` with an empty
partition name returns `(true, "")` without consulting the external predicate
(zero predicate calls, no hook firing); with a non-empty partition name and a
negative predicate result, it fires the failure hook exactly once and returns
`(false, reason)` with the predicate's reason unchanged, consulting the
predicate exactly once. -/
theorem c6_validity (j : StaticPartitionedTableAnalysisJob)
    (pred : String → String → List String → Bool × String) (reason : String)
    (hf : j.failureHook = some ()) :
    (j.StaticPartitionName = "" →
      j.IsValidToAnalyze pred =
        { valid := true, failReason := "", hookEvents := [], predicateCalls := 0 })
    ∧ (j.StaticPartitionName ≠ "" →
      pred j.TableSchema j.GlobalTableName [j.StaticPartitionName] = (false, reason) →
      j.IsValidToAnalyze pred =
        { valid := false, failReason := reason,
          hookEvents := [HookEvent.failureHook], predicateCalls := 1 }) := by
  constructor
  · intro h
    simp [IsValidToAnalyze, h]
  · intro h hp
    simp [IsValidToAnalyze, h, hp, hf]

theorem c6_witness :
    sampleJob.IsValidToAnalyze sampleInvalidPred =
      { valid := false, failReason := "not eligible",
        hookEvents := [HookEvent.failureHook], predicateCalls := 1 } :=
  (c6_validity sampleJob sampleInvalidPred "not eligible" rfl).2 (by decide) rfl

/-- C7: the analyze-type classification is a pure function of the index-name
sequence alone — empty sequence yields partition type, non-empty yields index
type, and any two job states agreeing on the index sequence classify
identically, so no other field (and no cache) can influence it. -/
theorem c7_classification (j k : StaticPartitionedTableAnalysisJob) :
    (j.getAnalyzeType =
      if j.Indexes = [] then analyzeType.analyzeStaticPartition
      else analyzeType.analyzeStaticPartitionIndex)
    ∧ (j.Indexes = k.Indexes → j.getAnalyzeType = k.getAnalyzeType) := by
  constructor
  · cases h : j.Indexes <;> simp [getAnalyzeType, HasNewlyAddedIndex, h]
  · intro h
    simp [getAnalyzeType, HasNewlyAddedIndex, h]

theorem c7_witness : sampleJob.getAnalyzeType = sampleJobB.getAnalyzeType :=
  (c7_classification sampleJob sampleJobB).2 rfl

/-- C8: the reported unit-of-work id (`GetTableID`) of a constructed job is
the static partition id it was constructed with — never the logical table id
when the two differ — it always equals the `StaticPartitionID` field, and it
is unchanged by every intervening operation (setting indicators or weight,
registering hooks). -/
theorem c8_table_id (schema globalTableName partitionName : String)
    (globalTableID partitionID : Int) (indexes : List String)
    (tableStatsVer : Int) (changePercentage tableSize : GoFloat)
    (lastAnalysisDuration : GoDuration)
    (j : StaticPartitionedTableAnalysisJob) (ind : Indicators) (w : GoFloat) :
    (NewStaticPartitionTableAnalysisJob schema globalTableName globalTableID
        partitionName partitionID indexes tableStatsVer changePercentage
        tableSize lastAnalysisDuration).GetTableID = partitionID
    ∧ (partitionID ≠ globalTableID →
        (NewStaticPartitionTableAnalysisJob schema globalTableName globalTableID
            partitionName partitionID indexes tableStatsVer changePercentage
            tableSize lastAnalysisDuration).GetTableID ≠ globalTableID)
    ∧ j.GetTableID = j.StaticPartitionID
    ∧ (j.SetIndicators ind).GetTableID = j.GetTableID
    ∧ (j.SetWeight w).GetTableID = j.GetTableID
    ∧ j.RegisterSuccessHook.GetTableID = j.GetTableID
    ∧ j.RegisterFailureHook.GetTableID = j.GetTableID :=
  ⟨rfl, fun h => h, rfl, rfl, rfl, rfl, rfl⟩

theorem c8_witness :
    (NewStaticPartitionTableAnalysisJob "s" "t" 10 "p" 20 [] 2 0 0
        0).GetTableID ≠ 10 :=
  (c8_table_id "s" "t" "p" 10 20 [] 2 0 0 0 sampleJob
    { ChangePercentage := 0, TableSize := 0, LastAnalysisDuration := 0 } 0).2.1
    (by decide)

/-- C9: for every job, the whole-partition SQL generator returns the pair
("analyze table %n.%n partition %n", [schema, table, partition]) and the
partition-index SQL generator returns ("analyze table %n.%n partition %n
index %n", [schema, table, partition, index]); both are pure pairs usable
without executing anything. -/
theorem c9_sql_generation (j : StaticPartitionedTableAnalysisJob)
    (index : String) :
    j.GenSQLForAnalyzeStaticPartition =
      ("analyze table %n.%n partition %n",
       [j.TableSchema, j.GlobalTableName, j.StaticPartitionName])
    ∧ j.GenSQLForAnalyzeStaticPartitionIndex index =
      ("analyze table %n.%n partition %n index %n",
       [j.TableSchema, j.GlobalTableName, j.StaticPartitionName, index]) :=
  ⟨rfl, rfl⟩

/-- C10: hooks are optional — with both hook references nil, `Analyze` and
`IsValidToAnalyze` complete normally with the same returned error, success
flag, issued statements, validity verdict, reason and predicate-call count as
with the original hook fields, and fire no hook at all. -/
theorem c10_nil_hooks (j : StaticPartitionedTableAnalysisJob)
    (pool : Except String SessionCtx) (ex : ExecCall → Bool)
    (pred : String → String → List String → Bool × String) :
    (stripHooks j).Analyze pool ex =
      { err := (j.Analyze pool ex).err
        success := (j.Analyze pool ex).success
        hookEvents := []
        execCalls := (j.Analyze pool ex).execCalls }
    ∧ (stripHooks j).IsValidToAnalyze pred =
      { valid := (j.IsValidToAnalyze pred).valid
        failReason := (j.IsValidToAnalyze pred).failReason
        hookEvents := []
        predicateCalls := (j.IsValidToAnalyze pred).predicateCalls } := by
  constructor
  · cases pool with
    | error e => simp [Analyze, CallWithSCtx, stripHooks_deferredHooks]
    | ok sctx =>
      cases h : j.getAnalyzeType <;>
        simp [Analyze, CallWithSCtx, stripHooks_getAnalyzeType, h,
          analyzeStaticPartition_stripHooks,
          analyzeStaticPartitionIndexes_stripHooks, stripHooks_deferredHooks]
  · by_cases h : j.StaticPartitionName = ""
    · simp [IsValidToAnalyze, stripHooks_StaticPartitionName, h]
    · rcases hp : pred j.TableSchema j.GlobalTableName [j.StaticPartitionName]
        with ⟨b, reason⟩
      cases b <;>
        simp [IsValidToAnalyze, stripHooks_StaticPartitionName,
          stripHooks_TableSchema, stripHooks_GlobalTableName,
          stripHooks_failureHook, h, hp]

end StaticPartitionedTableAnalysisJob

end PriorityQueue
